import Mathlib

/-!
Shallow embedding of the gradebook scoring engine
(`src/gradebook/model.py`, `src/gradebook/core.py`, and the grading/ranking
fragments of `src/gradebook/gui.py`).

Modelling conventions:
* Python floats are modelled as `ℚ` (all values appearing in the claims,
  such as the grade boundaries 90.0/80.0/70.0/60.0, are exactly
  representable, and the claims are about the exact algorithmic structure).
* A value stored in a `Student.scores` dict may be any Python object; the
  claims only need numbers, strings and `None`, captured by `PyVal`.
* Python `float(v)` conversion is fallible: it raises `TypeError` on `None`
  and `ValueError` on a non-numeric string.  Fallible code is embedded in
  the `Except PyErr` monad.
* Student identity (Python `id(...)`) is modelled by the student's position
  in `gradebook.students`: every roster entry is a distinct object
  (`GradeBook.add_student` always allocates a fresh `Student`), so position
  is a faithful stand-in for object identity.
* `sorted(..., key=..., reverse=True)` is a stable descending sort; it is
  embedded with `List.insertionSort` under the relation
  `fun a b => key b ≤ key a`, which is extensionally the same stable
  descending sort (ties keep input order).
-/

namespace Gradebook

/-- Python exception classes relevant to the engine. -/
inductive PyErr where
  | typeError
  | valueError
deriving Repr, DecidableEq

/-- A Python value stored in a student's `scores` dict: a number, a string,
or `None`. -/
inductive PyVal where
  | num (x : ℚ)
  | str (s : String)
  | pynone
deriving Repr, DecidableEq

/-- Numeric value of a list of decimal digit characters. -/
def digitsNat (cs : List Char) : ℕ :=
  cs.foldl (fun acc c => acc * 10 + (c.toNat - 48)) 0

/-- Strip leading and trailing spaces, as Python `float(string)` does. -/
def stripSpaces (cs : List Char) : List Char :=
  ((cs.dropWhile (· = ' ')).reverse.dropWhile (· = ' ')).reverse

/-- Model of Python `float(string)` restricted to finite decimal literals:
optional surrounding whitespace, optional sign, then digits with an optional
fractional part.  Anything else fails (as `float("abc")` does). -/
def parseFloat? (s : String) : Option ℚ :=
  let cs := stripSpaces s.toList
  let signBody : ℚ × List Char :=
    match cs with
    | '-' :: rest => (-1, rest)
    | '+' :: rest => (1, rest)
    | _ => (1, cs)
  let sign := signBody.1
  let body := signBody.2
  let intPart := body.takeWhile Char.isDigit
  let rest := body.dropWhile Char.isDigit
  match rest with
  | [] =>
    if intPart.isEmpty then none
    else some (sign * (digitsNat intPart : ℚ))
  | '.' :: frac =>
    if frac.all Char.isDigit && !(intPart.isEmpty && frac.isEmpty) then
      some (sign * ((digitsNat intPart : ℚ) +
        (digitsNat frac : ℚ) / ((10 : ℚ) ^ frac.length)))
    else none
  | _ => none

/-- Python `float(v)` on a stored score value. -/
def pyFloat : PyVal → Except PyErr ℚ
  | .num x => .ok x
  | .str s =>
    match parseFloat? s with
    | some q => .ok q
    | none => .error .valueError
  | .pynone => .error .typeError

/-- `model.py` `Student`: name, per-subject scores dict, phone, note.
The dict is a key-ordered association list with unique keys. -/
structure Student where
  name : String := ""
  scores : List (String × PyVal) := []
  phone : String := ""
  note : String := ""
deriving Repr, DecidableEq

/-- Python `d.get(key, default)` on the scores dict. -/
def dictGet (d : List (String × PyVal)) (key : String) (dflt : PyVal) : PyVal :=
  match d.find? (fun p => p.1 == key) with
  | some p => p.2
  | none => dflt

/-- `Student.get_score`: `float(self.scores.get(subject, 0.0))`.
The `float(...)` call is made here, so a stored non-numeric value raises
inside `get_score` itself. -/
def Student.get_score (s : Student) (subject : String) : Except PyErr ℚ :=
  pyFloat (dictGet s.scores subject (.num 0))

/-- `model.py` `GradeBook`: ordered subjects and students. -/
structure GradeBook where
  subjects : List String := []
  students : List Student := []
deriving Repr, DecidableEq

/-- `GradeBook.remove_student(index)`:
`if 0 <= index < len(self.students): self.students.pop(index)`.
The index is a Python `int`, so it is modelled as `ℤ`. -/
def GradeBook.remove_student (gb : GradeBook) (index : ℤ) : GradeBook :=
  if 0 ≤ index ∧ index < gb.students.length then
    { gb with students := gb.students.eraseIdx index.toNat }
  else gb

/-- `core.py` `grade_from_avg`. -/
def grade_from_avg (avg : ℚ) : String :=
  if avg ≥ 90 then "A"
  else if avg ≥ 80 then "B"
  else if avg ≥ 70 then "C"
  else if avg ≥ 60 then "D"
  else "F"

/-- One result dict produced by `core.recalculate`:
`{'student': s, 'total': ..., 'avg': ..., 'grade': ..., 'rank': ...}`.
The `student` field is the student's identity (position in the roster). -/
structure ResultRow where
  student : ℕ
  total : ℚ
  avg : ℚ
  grade : String
  rank : Option ℕ
deriving Repr, DecidableEq

/-- The inner per-subject loop of `recalculate`: builds the `scores` list.
`val = s.get_score(subj)` happens outside any try/except and may raise.
The subsequent `try: v = float(val) if val is not None else 0.0` cannot
fail: `val` is already a float returned by `get_score`, so `v = val` and
the `except` branch is dead. -/
def scoresOf (subjects : List String) (s : Student) : Except PyErr (List ℚ) :=
  match subjects with
  | [] => .ok []
  | subj :: rest => do
    let val ← s.get_score subj
    let v := val
    let vs ← scoresOf rest s
    .ok (v :: vs)

/-- One iteration of the per-student loop of `recalculate` (before the rank
pass): total, average, grade, `rank: None`.  `i` is the student's position. -/
def computeRow (subjects : List String) (i : ℕ) (s : Student) :
    Except PyErr ResultRow := do
  let scores ← scoresOf subjects s
  let subj_count := subjects.length
  let total := scores.sum
  let avg := if subj_count > 0 then total / (subj_count : ℚ) else 0
  .ok { student := i, total := total, avg := avg,
        grade := grade_from_avg avg, rank := none }

/-- The per-student loop of `recalculate` over the (position, student)
pairs of the roster. -/
def computeRows (subjects : List String) :
    List (ℕ × Student) → Except PyErr (List ResultRow)
  | [] => .ok []
  | (i, s) :: rest => do
    let row ← computeRow subjects i s
    let rows ← computeRows subjects rest
    .ok (row :: rows)

/-- Descending comparison under a sort key, as used by
`sorted(..., key=lambda x: x['total'], reverse=True)`. -/
def descRel {α : Type} (key : α → ℚ) : α → α → Prop :=
  fun a b => key b ≤ key a

instance {α : Type} (key : α → ℚ) : DecidableRel (descRel key) :=
  fun a b => inferInstanceAs (Decidable (key b ≤ key a))

instance {α : Type} (key : α → ℚ) : IsTotal α (descRel key) :=
  ⟨fun a b => le_total (key b) (key a)⟩

instance {α : Type} (key : α → ℚ) : IsTrans α (descRel key) :=
  ⟨fun _ _ _ hab hbc => le_trans hbc hab⟩

/-- Python `sorted(l, key=key, reverse=True)`: a stable descending sort.
`List.insertionSort` under `descRel key` is extensionally the same sort
(ties keep their input order). -/
def pySortedByTotalDesc {α : Type} (key : α → ℚ) (l : List α) : List α :=
  List.insertionSort (descRel key) l

/-- The rank-assignment loop of `recalculate`:
`last_total = None; last_rank = 0;`
`for idx, item in enumerate(sorted_by_total, start=1): ...`. -/
def rankLoop {α : Type} (key : α → ℚ) :
    List α → ℕ → Option ℚ → ℕ → List (α × ℕ)
  | [], _, _, _ => []
  | item :: rest, idx, lastTotal, lastRank =>
    if some (key item) = lastTotal then
      (item, lastRank) :: rankLoop key rest (idx + 1) lastTotal lastRank
    else
      (item, idx) :: rankLoop key rest (idx + 1) (some (key item)) idx

/-- `core.py` `recalculate`: per-student aggregation, stable descending sort
by total, competition-rank loop, then the `rank_map` keyed by student
identity (`id(...)`, modelled by roster position) read back in input order
via `rank_map.get(id(item['student']), None)`. -/
def recalculate (gradebook : GradeBook) : Except PyErr (List ResultRow) := do
  let results ← computeRows gradebook.subjects gradebook.students.enum
  let sorted_by_total := pySortedByTotalDesc ResultRow.total results
  let rank_map := (rankLoop ResultRow.total sorted_by_total 1 none 0).map
    (fun pr => (pr.1.student, pr.2))
  .ok (results.map (fun item => { item with rank := rank_map.lookup item.student }))

/-- Competition rank of total `t` within the multiset `totals`:
one more than the number of strictly greater totals. -/
def competitionRank (totals : List ℚ) (t : ℚ) : ℕ :=
  1 + totals.countP (fun u => decide (t < u))

/-- Per-subject value used by the specification of `total`: the score a
successful lookup yields, read off the `get_score` result. -/
def okD (e : Except PyErr ℚ) : ℚ :=
  match e with
  | .ok v => v
  | .error _ => 0

/-- Specification-side description of the row `computeRow` produces on
success: total is the ordered sum of the per-subject values, average is
`total / subjectCount` (or `0` with no subjects), grade is derived from the
average, and rank is not yet assigned. -/
def rowSpec (subjects : List String) (i : ℕ) (s : Student) : ResultRow :=
  let total := (subjects.map (fun subj => okD (s.get_score subj))).sum
  let avg := if 0 < subjects.length then total / (subjects.length : ℚ) else 0
  { student := i, total := total, avg := avg,
    grade := grade_from_avg avg, rank := none }

/-! ### The UI-embedded second implementation (`gui.py`) -/

/-- `gui.py` `grade_from_avg` (module-level function, lines 57-66). -/
def gui_grade_from_avg (avg : ℚ) : String :=
  if avg ≥ 90 then "A"
  else if avg ≥ 80 then "B"
  else if avg ≥ 70 then "C"
  else if avg ≥ 60 then "D"
  else "F"

/-- The ranking of `gui.py` `MainWindow.recalculate_all`: rows are the
pairs `(r, total)` collected per table row, and
`rank_map = {r_idx: rank + 1 for rank, (r_idx, _) in enumerate(totals_sorted)}`
assigns consecutive 1-based sorted positions. -/
def gui_rank_map (totals : List ℚ) : List (ℕ × ℕ) :=
  (List.enum (pySortedByTotalDesc Prod.snd totals.enum)).map
    (fun p => (p.2.1, p.1 + 1))

/-- The rank the GUI writes into each row `r` in `0..len(totals)-1`:
`rank_map.get(r, ...)`. -/
def gui_ranks (totals : List ℚ) : List (Option ℕ) :=
  (List.range totals.length).map (fun r => (gui_rank_map totals).lookup r)

/-- The ranking procedure of `core.recalculate` applied to the same
`(row index, total)` pairs: stable descending sort, the competition-rank
loop, and the identity-keyed `rank_map`. -/
def core_rank_map (totals : List ℚ) : List (ℕ × ℕ) :=
  (rankLoop Prod.snd (pySortedByTotalDesc Prod.snd totals.enum) 1 none 0).map
    (fun pr => (pr.1.1, pr.2))

/-- The rank `core.recalculate`'s procedure assigns to each row `r`. -/
def core_ranks (totals : List ℚ) : List (Option ℕ) :=
  (List.range totals.length).map (fun r => (core_rank_map totals).lookup r)

/-! ### State-passing embedding of `recalculate`

To express the frame property (the engine mutates neither the roster nor
its students) the same code is embedded a second time with the mutable
state threaded explicitly: every operation that touches a `Student` or the
`GradeBook` returns the (possibly updated) object alongside its result.
`dict.get` and `float` only read, so `get_score` returns its student
unchanged; the rank pass writes only to the freshly allocated result
dicts, which are not part of the roster. -/

/-- State-passing `Student.get_score`: returns the student it leaves
behind together with the looked-up value. -/
def Student.get_scoreST (s : Student) (subject : String) :
    Except PyErr (Student × ℚ) :=
  match pyFloat (dictGet s.scores subject (.num 0)) with
  | .ok v => .ok (s, v)
  | .error e => .error e

/-- State-passing per-subject loop. -/
def scoresOfST (subjects : List String) (s : Student) :
    Except PyErr (Student × List ℚ) :=
  match subjects with
  | [] => .ok (s, [])
  | subj :: rest => do
    let sv ← s.get_scoreST subj
    let rest2 ← scoresOfST rest sv.1
    .ok (rest2.1, sv.2 :: rest2.2)

/-- State-passing per-student computation. -/
def computeRowST (subjects : List String) (i : ℕ) (s : Student) :
    Except PyErr (Student × ResultRow) := do
  let sv ← scoresOfST subjects s
  let subj_count := subjects.length
  let total := sv.2.sum
  let avg := if subj_count > 0 then total / (subj_count : ℚ) else 0
  .ok (sv.1, { student := i, total := total, avg := avg,
               grade := grade_from_avg avg, rank := none })

/-- State-passing per-student loop, returning the students it leaves in
the roster together with the result rows. -/
def computeRowsST (subjects : List String) :
    List (ℕ × Student) → Except PyErr (List Student × List ResultRow)
  | [] => .ok ([], [])
  | (i, s) :: rest => do
    let sr ← computeRowST subjects i s
    let rest2 ← computeRowsST subjects rest
    .ok (sr.1 :: rest2.1, sr.2 :: rest2.2)

/-- State-passing `recalculate`: returns the gradebook as it stands after
the call, together with the result rows. -/
def recalculateST (gradebook : GradeBook) :
    Except PyErr (GradeBook × List ResultRow) := do
  let sr ← computeRowsST gradebook.subjects gradebook.students.enum
  let results := sr.2
  let gradebook1 : GradeBook := { subjects := gradebook.subjects, students := sr.1 }
  let sorted_by_total := pySortedByTotalDesc ResultRow.total results
  let rank_map := (rankLoop ResultRow.total sorted_by_total 1 none 0).map
    (fun pr => (pr.1.student, pr.2))
  .ok (gradebook1,
    results.map (fun item => { item with rank := rank_map.lookup item.student }))

/-! ### Concrete rosters used in counterexamples and witnesses -/

/-- A one-subject roster holding one student per given total. -/
def rosterOfTotals (totals : List ℚ) : GradeBook :=
  { subjects := ["s"]
    students := totals.map (fun t => { name := "", scores := [("s", PyVal.num t)] }) }

/-- Roster whose single student has the non-numeric string `"abc"` stored
as the score of the single subject `"math"`. -/
def gbBadScore : GradeBook :=
  { subjects := ["math"]
    students := [{ name := "Alice", scores := [("math", PyVal.str "abc")] }] }

/-- The rows `recalculate` returns on `rosterOfTotals [100, 100, 90]`. -/
def rsTie3 : List ResultRow :=
  [{ student := 0, total := 100, avg := 100, grade := "A", rank := some 1 },
   { student := 1, total := 100, avg := 100, grade := "A", rank := some 1 },
   { student := 2, total := 90, avg := 90, grade := "A", rank := some 3 }]

/-- The rows `recalculate` returns on `rosterOfTotals [80, 80, 80, 70]`. -/
def rsTie4 : List ResultRow :=
  [{ student := 0, total := 80, avg := 80, grade := "B", rank := some 1 },
   { student := 1, total := 80, avg := 80, grade := "B", rank := some 1 },
   { student := 2, total := 80, avg := 80, grade := "B", rank := some 1 },
   { student := 3, total := 70, avg := 70, grade := "C", rank := some 4 }]

/-- A two-subject roster whose single student has a score only for the
first subject. -/
def gbPartial : GradeBook :=
  { subjects := ["m", "e"]
    students := [{ name := "x", scores := [("m", PyVal.num 40)] }] }

/-- The rows `recalculate` returns on `gbPartial`. -/
def rsPartial : List ResultRow :=
  [{ student := 0, total := 40, avg := 20, grade := "F", rank := some 1 }]

/-- A roster with a subject but no students. -/
def gbNoStudents : GradeBook := { subjects := ["s"], students := [] }

/-- A roster with two students but no subjects. -/
def gbNoSubjects : GradeBook :=
  { subjects := [], students := [{ name := "a" }, { name := "b" }] }

/-- The rows `recalculate` returns on `gbNoSubjects`. -/
def rsNoSubjects : List ResultRow :=
  [{ student := 0, total := 0, avg := 0, grade := "F", rank := some 1 },
   { student := 1, total := 0, avg := 0, grade := "F", rank := some 1 }]

/-- The rows `recalculate` returns on `rosterOfTotals [50]`. -/
def rsSingle : List ResultRow :=
  [{ student := 0, total := 50, avg := 50, grade := "F", rank := some 1 }]

deriving instance DecidableEq for Except

end Gradebook

namespace Gradebook

/-! ## Lemmas -/

theorem except_bind_ok {ε α β : Type} (a : α) (f : α → Except ε β) :
    (Except.ok a >>= f) = f a := rfl

theorem except_bind_error {ε α β : Type} (e : ε) (f : α → Except ε β) :
    ((Except.error e : Except ε α) >>= f) = .error e := rfl

theorem pySorted_perm {α : Type} (key : α → ℚ) (l : List α) :
    List.Perm (pySortedByTotalDesc key l) l :=
  List.perm_insertionSort _ l

theorem pySorted_sorted {α : Type} (key : α → ℚ) (l : List α) :
    List.Sorted (descRel key) (pySortedByTotalDesc key l) :=
  List.sorted_insertionSort _ l

theorem rankLoop_go {α : Type} (key : α → ℚ) (l : List α) :
    ∀ (t : ℚ) (prev : List ℚ),
      List.Sorted (descRel key) l →
      (∀ a ∈ l, key a ≤ t) →
      (∀ u ∈ prev, t ≤ u) →
      rankLoop key l (prev.length + 1) (some t)
          (1 + prev.countP (fun u => decide (t < u))) =
        l.map (fun a =>
          (a, 1 + (prev ++ l.map key).countP (fun u => decide (key a < u)))) := by
  induction l with
  | nil => intro t prev _ _ _; simp [rankLoop]
  | cons a rest ih =>
    intro t prev hs hle hprev
    rw [List.sorted_cons] at hs
    obtain ⟨ha, hrest⟩ := hs
    have harest : ∀ b ∈ rest, key b ≤ key a := fun b hb => ha b hb
    have hat : key a ≤ t := hle a (List.mem_cons_self a rest)
    have hrzero : (rest.map key).countP (fun u => decide (key a < u)) = 0 := by
      rw [List.countP_eq_zero]
      intro u hu
      obtain ⟨b, hb, rfl⟩ := List.mem_map.mp hu
      simpa using not_lt.mpr (harest b hb)
    by_cases heq : key a = t
    · subst heq
      rw [rankLoop, if_pos rfl]
      have hprevcnt : (prev ++ [key a]).countP (fun u => decide (key a < u)) =
          prev.countP (fun u => decide (key a < u)) := by
        simp [List.countP_append]
      have htail := ih (key a) (prev ++ [key a]) hrest harest
        (by intro u hu
            rcases List.mem_append.mp hu with hu | hu
            · exact hprev u hu
            · simp at hu; simp [hu])
      rw [hprevcnt] at htail
      simp only [List.length_append, List.length_singleton] at htail
      have hidx : prev.length + 1 + 1 = prev.length + 2 := rfl
      rw [List.map_cons]
      congr 1
      · -- head
        congr 1
        rw [List.map_cons, List.countP_append, List.countP_cons]
        simp [hrzero]
      · -- tail
        rw [htail]
        apply List.map_congr_left
        intro b _
        congr 2
        rw [List.append_assoc, List.singleton_append, List.map_cons]
    · have hlt : key a < t := lt_of_le_of_ne hat heq
      rw [rankLoop, if_neg (by simp [heq])]
      have hprevall : prev.countP (fun u => decide (key a < u)) = prev.length := by
        rw [List.countP_eq_length]
        intro u hu
        simpa using lt_of_lt_of_le hlt (hprev u hu)
      have htail := ih (key a) (prev ++ [key a]) hrest harest
        (by intro u hu
            rcases List.mem_append.mp hu with hu | hu
            · exact le_trans (le_of_lt hlt) (hprev u hu)
            · simp at hu; simp [hu])
      have hcnt2 : (prev ++ [key a]).countP (fun u => decide (key a < u)) =
          prev.length := by
        simp [List.countP_append, hprevall]
      rw [hcnt2] at htail
      simp only [List.length_append, List.length_singleton] at htail
      rw [List.map_cons]
      congr 1
      · congr 1
        rw [List.map_cons, List.countP_append, List.countP_cons]
        simp [hrzero, hprevall]
        omega
      · rw [show prev.length + 1 + 1 = prev.length + 1 + 1 from rfl] at htail
        rw [show (1 : ℕ) + prev.length = prev.length + 1 from Nat.add_comm 1 _] at htail
        rw [htail]
        apply List.map_congr_left
        intro b _
        congr 2
        rw [List.append_assoc, List.singleton_append, List.map_cons]

theorem rankLoop_eq {α : Type} (key : α → ℚ) (l : List α)
    (hs : List.Sorted (descRel key) l) :
    rankLoop key l 1 none 0 =
      l.map (fun a => (a, competitionRank (l.map key) (key a))) := by
  cases l with
  | nil => simp [rankLoop]
  | cons a rest =>
    rw [List.sorted_cons] at hs
    obtain ⟨ha, hrest⟩ := hs
    have harest : ∀ b ∈ rest, key b ≤ key a := fun b hb => ha b hb
    have hrzero : (rest.map key).countP (fun u => decide (key a < u)) = 0 := by
      rw [List.countP_eq_zero]
      intro u hu
      obtain ⟨b, hb, rfl⟩ := List.mem_map.mp hu
      simpa using not_lt.mpr (harest b hb)
    rw [rankLoop, if_neg (by simp)]
    have htail := rankLoop_go key rest (key a) [key a] hrest harest (by simp)
    have hcnt : ([key a] : List ℚ).countP (fun u => decide (key a < u)) = 0 := by simp
    rw [hcnt] at htail
    simp only [List.length_singleton, Nat.add_zero] at htail
    rw [htail]
    simp only [List.map_cons]
    congr 1
    congr 1
    simp [competitionRank, List.map_cons, List.countP_cons, hrzero]

theorem lookup_map_of_nodup {α : Type} (idOf : α → ℕ) (f : α → ℕ) :
    ∀ (M : List α), (M.map idOf).Nodup → ∀ p ∈ M,
      (M.map (fun a => (idOf a, f a))).lookup (idOf p) = some (f p) := by
  intro M
  induction M with
  | nil => intro _ p hp; cases hp
  | cons q rest ih =>
    intro hnd p hp
    rw [List.map_cons, List.nodup_cons] at hnd
    rw [List.map_cons, List.lookup_cons]
    cases hbe : (idOf p == idOf q) with
    | true =>
      have hpq : idOf p = idOf q := by simpa using hbe
      rcases List.mem_cons.mp hp with rfl | hp2
      · simp
      · exact absurd (hpq ▸ List.mem_map_of_mem idOf hp2) hnd.1
    | false =>
      have hpq : idOf p ≠ idOf q := by simpa using hbe
      rcases List.mem_cons.mp hp with rfl | hp2
      · exact absurd rfl hpq
      · simpa using ih hnd.2 p hp2

theorem scoresOf_ok : ∀ {subjects : List String} {s : Student} {vs : List ℚ},
    scoresOf subjects s = .ok vs →
    vs = subjects.map (fun subj => okD (s.get_score subj)) := by
  intro subjects
  induction subjects with
  | nil =>
    intro s vs h
    simp only [scoresOf] at h
    cases h
    rfl
  | cons subj rest ih =>
    intro s vs h
    simp only [scoresOf] at h
    cases hg : s.get_score subj with
    | error e => rw [hg, except_bind_error] at h; cases h
    | ok v =>
      rw [hg, except_bind_ok] at h
      cases hr : scoresOf rest s with
      | error e => rw [hr, except_bind_error] at h; cases h
      | ok vs0 =>
        rw [hr, except_bind_ok] at h
        cases h
        rw [List.map_cons, ← ih hr]
        simp [okD, hg]

theorem computeRow_ok {subjects : List String} {i : ℕ} {s : Student}
    {row : ResultRow} (h : computeRow subjects i s = .ok row) :
    row = rowSpec subjects i s := by
  simp only [computeRow] at h
  cases hg : scoresOf subjects s with
  | error e => rw [hg, except_bind_error] at h; cases h
  | ok vs =>
    rw [hg, except_bind_ok] at h
    cases h
    rw [rowSpec, scoresOf_ok hg]

theorem computeRows_ok : ∀ {subjects : List String} {l : List (ℕ × Student)}
    {rows : List ResultRow}, computeRows subjects l = .ok rows →
    rows = l.map (fun p => rowSpec subjects p.1 p.2) := by
  intro subjects l
  induction l with
  | nil =>
    intro rows h
    simp only [computeRows] at h
    cases h
    rfl
  | cons p rest ih =>
    intro rows h
    obtain ⟨i, s⟩ := p
    simp only [computeRows] at h
    cases hg : computeRow subjects i s with
    | error e => rw [hg, except_bind_error] at h; cases h
    | ok row =>
      rw [hg, except_bind_ok] at h
      cases hr : computeRows subjects rest with
      | error e => rw [hr, except_bind_error] at h; cases h
      | ok rows0 =>
        rw [hr, except_bind_ok] at h
        cases h
        rw [List.map_cons, ← ih hr, ← computeRow_ok hg]

theorem rank_lookup {results : List ResultRow}
    (hnd : (results.map ResultRow.student).Nodup)
    {p : ResultRow} (hp : p ∈ results) :
    ((rankLoop ResultRow.total (pySortedByTotalDesc ResultRow.total results) 1 none 0).map
        (fun pr => (pr.1.student, pr.2))).lookup p.student
      = some (competitionRank (results.map ResultRow.total) p.total) := by
  have hperm := pySorted_perm ResultRow.total results
  have hsort := pySorted_sorted ResultRow.total results
  rw [rankLoop_eq _ _ hsort, List.map_map]
  have hndS : ((pySortedByTotalDesc ResultRow.total results).map ResultRow.student).Nodup :=
    ((hperm.map ResultRow.student).nodup_iff).mpr hnd
  have hpS : p ∈ pySortedByTotalDesc ResultRow.total results := hperm.mem_iff.mpr hp
  have hlk := lookup_map_of_nodup ResultRow.student
    (fun a => competitionRank
      ((pySortedByTotalDesc ResultRow.total results).map ResultRow.total) a.total)
    (pySortedByTotalDesc ResultRow.total results) hndS p hpS
  have hcnt : competitionRank
      ((pySortedByTotalDesc ResultRow.total results).map ResultRow.total) p.total
      = competitionRank (results.map ResultRow.total) p.total := by
    unfold competitionRank
    congr 1
    exact (hperm.map ResultRow.total).countP_eq _
  simpa [hcnt] using hlk

theorem recalculate_ok_shape {gb : GradeBook} {rs : List ResultRow}
    (h : recalculate gb = .ok rs) :
    ∃ results, computeRows gb.subjects gb.students.enum = .ok results ∧
      rs = results.map (fun item =>
        { item with rank := ((rankLoop ResultRow.total
            (pySortedByTotalDesc ResultRow.total results) 1 none 0).map
            (fun pr => (pr.1.student, pr.2))).lookup item.student }) := by
  simp only [recalculate] at h
  cases hg : computeRows gb.subjects gb.students.enum with
  | error e => rw [hg, except_bind_error] at h; cases h
  | ok results =>
    rw [hg, except_bind_ok] at h
    cases h
    exact ⟨results, rfl, rfl⟩

theorem enum_length {β : Type} (l : List β) : (List.enum l).length = l.length := by
  show (List.enumFrom 0 l).length = l.length
  rw [List.enumFrom_length]

theorem enum_getElem? {β : Type} (l : List β) (i : ℕ) :
    (List.enum l)[i]? = l[i]?.map (fun a => (i, a)) := by
  show (List.enumFrom 0 l)[i]? = _
  rw [List.getElem?_enumFrom]
  simp

theorem enum_getElem {β : Type} {l : List β} {i : ℕ}
    (h3 : i < (List.enum l).length) (hi : i < l.length) :
    (List.enum l)[i] = (i, l[i]) := by
  have h1 := List.getElem?_eq_getElem h3
  rw [enum_getElem? l i, List.getElem?_eq_getElem hi] at h1
  simp only [Option.map_some'] at h1
  exact (Option.some.inj h1).symm

theorem recalculate_char {gb : GradeBook} {rs : List ResultRow}
    (h : recalculate gb = .ok rs) :
    rs.length = gb.students.length ∧
    ∀ i (hi : i < rs.length) (hi2 : i < gb.students.length),
      rs[i].student = i ∧
      rs[i].total =
        (gb.subjects.map (fun subj => okD (gb.students[i].get_score subj))).sum ∧
      rs[i].avg = (if 0 < gb.subjects.length
        then rs[i].total / (gb.subjects.length : ℚ) else 0) ∧
      rs[i].grade = grade_from_avg rs[i].avg ∧
      rs[i].rank = some (competitionRank (rs.map ResultRow.total) rs[i].total) := by
  obtain ⟨results, hcr, hrs⟩ := recalculate_ok_shape h
  have hres := computeRows_ok hcr
  have hsid : results.map ResultRow.student = List.range gb.students.length := by
    rw [hres, List.map_map]
    have hfst : (List.enum gb.students).map
        (ResultRow.student ∘ (fun p : ℕ × Student => rowSpec gb.subjects p.1 p.2))
        = (List.enum gb.students).map Prod.fst :=
      List.map_congr_left (fun p _ => rfl)
    rw [hfst]
    show (List.enumFrom 0 gb.students).map Prod.fst = _
    rw [List.enumFrom_map_fst, ← List.range_eq_range']
  have hndres : (results.map ResultRow.student).Nodup := by
    rw [hsid]; exact List.nodup_range _
  have hlenres : results.length = gb.students.length := by
    rw [hres, List.length_map]
    show (List.enumFrom 0 gb.students).length = _
    rw [List.enumFrom_length]
  have hlen : rs.length = gb.students.length := by
    rw [hrs, List.length_map, hlenres]
  refine ⟨hlen, ?_⟩
  intro i hi hi2
  have hresi : i < results.length := by rw [hlenres]; exact hi2
  have hresget : results[i] = rowSpec gb.subjects i gb.students[i] := by
    have h3 : i < (List.enum gb.students).length := by
      rw [enum_length]; exact hi2
    simp only [hres, List.getElem_map, enum_getElem h3 hi2]
  have hrsget : rs[i] = { results[i] with
      rank := ((rankLoop ResultRow.total
        (pySortedByTotalDesc ResultRow.total results) 1 none 0).map
        (fun pr => (pr.1.student, pr.2))).lookup results[i].student } := by
    simp only [hrs, List.getElem_map]
  have htotmap : rs.map ResultRow.total = results.map ResultRow.total := by
    rw [hrs, List.map_map]
    exact List.map_congr_left (fun a _ => rfl)
  have hrank := rank_lookup hndres (List.getElem_mem hresi)
  refine ⟨?_, ?_, ?_, ?_, ?_⟩
  · rw [hrsget, hresget]; rfl
  · rw [hrsget, hresget]; rfl
  · rw [hrsget, hresget]
    show (rowSpec gb.subjects i gb.students[i]).avg = _
    rw [rowSpec]
  · rw [hrsget, hresget]
    show (rowSpec gb.subjects i gb.students[i]).grade = _
    rw [rowSpec]
  · have h1 : rs[i].rank = ((rankLoop ResultRow.total
        (pySortedByTotalDesc ResultRow.total results) 1 none 0).map
        (fun pr => (pr.1.student, pr.2))).lookup results[i].student := by
      rw [hrsget]
    have h2 : rs[i].total = results[i].total := by rw [hrsget]
    rw [h1, hrank, htotmap, h2]

theorem recalculate_students_nil {gb : GradeBook} (h : gb.students = []) :
    recalculate gb = .ok [] := by
  unfold recalculate
  rw [h]
  rfl

theorem computeRows_nil_subjects : ∀ (l : List (ℕ × Student)),
    computeRows [] l = .ok (l.map (fun p => rowSpec [] p.1 p.2)) := by
  intro l
  induction l with
  | nil => rfl
  | cons p rest ih =>
    obtain ⟨i, s⟩ := p
    simp only [computeRows]
    rw [show computeRow [] i s = .ok (rowSpec [] i s) from rfl]
    rw [except_bind_ok, ih, except_bind_ok]
    rfl

theorem recalculate_ok_of_nil_subjects {gb : GradeBook} (h : gb.subjects = []) :
    ∃ rs, recalculate gb = .ok rs := by
  unfold recalculate
  rw [h, computeRows_nil_subjects, except_bind_ok]
  exact ⟨_, rfl⟩

theorem competitionRank_all_eq {totals : List ℚ} {t : ℚ}
    (h : ∀ u ∈ totals, u = t) : competitionRank totals t = 1 := by
  unfold competitionRank
  rw [List.countP_eq_zero.mpr]
  intro u hu
  simp [h u hu]

theorem competitionRank_pos (totals : List ℚ) (t : ℚ) :
    1 ≤ competitionRank totals t := by
  unfold competitionRank
  omega

theorem competitionRank_le {totals : List ℚ} {t : ℚ} (h : t ∈ totals) :
    competitionRank totals t ≤ totals.length := by
  unfold competitionRank
  have hle : totals.countP (fun u => decide (t < u)) ≤ totals.length :=
    List.countP_le_length _
  have hne : totals.countP (fun u => decide (t < u)) ≠ totals.length := by
    intro heq
    have := List.countP_eq_length.mp heq t h
    simp at this
  omega

theorem get_scoreST_eq (s : Student) (subject : String) :
    s.get_scoreST subject = (s.get_score subject).map (fun v => (s, v)) := by
  unfold Student.get_scoreST Student.get_score
  cases pyFloat (dictGet s.scores subject (.num 0)) <;> rfl

theorem scoresOfST_eq : ∀ (subjects : List String) (s : Student),
    scoresOfST subjects s = (scoresOf subjects s).map (fun vs => (s, vs)) := by
  intro subjects
  induction subjects with
  | nil => intro s; rfl
  | cons subj rest ih =>
    intro s
    simp only [scoresOfST, scoresOf, get_scoreST_eq]
    cases s.get_score subj with
    | error e => rfl
    | ok v =>
      show (scoresOfST rest s >>= fun rest2 => Except.ok (rest2.1, v :: rest2.2)) =
        ((scoresOf rest s >>= fun vs => Except.ok (v :: vs)).map (fun vs => (s, vs)))
      rw [ih]
      cases scoresOf rest s <;> rfl

theorem computeRowST_eq (subjects : List String) (i : ℕ) (s : Student) :
    computeRowST subjects i s = (computeRow subjects i s).map (fun row => (s, row)) := by
  unfold computeRowST computeRow
  rw [scoresOfST_eq]
  cases scoresOf subjects s <;> rfl

theorem computeRowsST_eq (subjects : List String) : ∀ (l : List (ℕ × Student)),
    computeRowsST subjects l =
      (computeRows subjects l).map (fun rows => (l.map Prod.snd, rows)) := by
  intro l
  induction l with
  | nil => rfl
  | cons p rest ih =>
    obtain ⟨i, s⟩ := p
    simp only [computeRowsST, computeRows]
    rw [computeRowST_eq]
    cases computeRow subjects i s with
    | error e => rfl
    | ok row =>
      show (computeRowsST subjects rest >>= fun rest2 =>
          Except.ok (s :: rest2.1, row :: rest2.2)) = _
      rw [ih]
      cases computeRows subjects rest <;> rfl

theorem recalculateST_eq (gb : GradeBook) :
    recalculateST gb = (recalculate gb).map (fun rs => (gb, rs)) := by
  unfold recalculateST recalculate
  rw [computeRowsST_eq]
  have hsnd : gb.students.enum.map Prod.snd = gb.students := by
    show (List.enumFrom 0 gb.students).map Prod.snd = _
    rw [List.enumFrom_map_snd]
  cases computeRows gb.subjects gb.students.enum with
  | error e => rfl
  | ok results =>
    show (Except.ok (gb.students.enum.map Prod.snd, results) >>= _) = _
    rw [except_bind_ok, hsnd, except_bind_ok]
    rfl

theorem countP_gt_of_sorted_strict : ∀ (T : List ℚ),
    T.Pairwise (fun x y => y < x) →
    ∀ k (hk : k < T.length), T.countP (fun u => decide (T[k] < u)) = k := by
  intro T
  induction T with
  | nil => intro _ k hk; exact absurd hk (Nat.not_lt_zero k)
  | cons a rest ih =>
    intro hp k hk
    rw [List.pairwise_cons] at hp
    cases k with
    | zero =>
      rw [List.countP_eq_zero]
      intro u hu
      rcases List.mem_cons.mp hu with rfl | hu2
      · simp
      · simpa using not_lt.mpr (le_of_lt (hp.1 u hu2))
    | succ k0 =>
      have hk0 : k0 < rest.length := by simpa using hk
      have hget : (a :: rest)[k0 + 1] = rest[k0] := by
        rw [List.getElem_cons_succ]
      rw [hget]
      rw [List.countP_cons_of_pos]
      · rw [ih hp.2 k0 hk0]
      · simpa using hp.1 rest[k0] (List.getElem_mem hk0)

theorem rank_maps_eq {totals : List ℚ} (hnd : totals.Nodup) :
    gui_rank_map totals = core_rank_map totals := by
  unfold gui_rank_map core_rank_map
  have hsort := pySorted_sorted Prod.snd totals.enum
  have hperm := pySorted_perm Prod.snd totals.enum
  rw [rankLoop_eq _ _ hsort, List.map_map]
  have hTsorted : ((pySortedByTotalDesc Prod.snd totals.enum).map Prod.snd).Pairwise
      (fun x y => y ≤ x) := List.pairwise_map.mpr hsort
  have hTperm : List.Perm ((pySortedByTotalDesc Prod.snd totals.enum).map Prod.snd)
      totals := by
    have h1 := hperm.map Prod.snd
    have h2 : (totals.enum).map Prod.snd = totals := by
      show (List.enumFrom 0 totals).map Prod.snd = _
      rw [List.enumFrom_map_snd]
    rw [h2] at h1
    exact h1
  have hTnodup : ((pySortedByTotalDesc Prod.snd totals.enum).map Prod.snd).Nodup :=
    hTperm.nodup_iff.mpr hnd
  have hTstrict : ((pySortedByTotalDesc Prod.snd totals.enum).map Prod.snd).Pairwise
      (fun x y => y < x) :=
    (hTsorted.and hTnodup).imp (fun h => lt_of_le_of_ne h.1 (Ne.symm h.2))
  refine List.ext_getElem ?_ ?_
  · rw [List.length_map, enum_length, List.length_map]
  · intro k h1 h2
    have hkS : k < (pySortedByTotalDesc Prod.snd totals.enum).length := by
      rw [List.length_map, enum_length] at h1
      exact h1
    have h3 : k < (List.enum (pySortedByTotalDesc Prod.snd totals.enum)).length := by
      rw [enum_length]; exact hkS
    rw [List.getElem_map, List.getElem_map, enum_getElem h3 hkS]
    have hkT : k < ((pySortedByTotalDesc Prod.snd totals.enum).map Prod.snd).length := by
      rw [List.length_map]; exact hkS
    have hcnt := countP_gt_of_sorted_strict _ hTstrict k hkT
    rw [List.getElem_map] at hcnt
    show ((pySortedByTotalDesc Prod.snd totals.enum)[k].1, k + 1) =
      ((pySortedByTotalDesc Prod.snd totals.enum)[k].1,
        competitionRank ((pySortedByTotalDesc Prod.snd totals.enum).map Prod.snd)
          ((pySortedByTotalDesc Prod.snd totals.enum)[k].2))
    rw [Prod.mk.injEq]
    refine ⟨rfl, ?_⟩
    unfold competitionRank
    omega

theorem gui_core_ranks_eq {totals : List ℚ} (hnd : totals.Nodup) :
    gui_ranks totals = core_ranks totals := by
  unfold gui_ranks core_ranks
  rw [rank_maps_eq hnd]

end Gradebook

namespace Gradebook

/-! ## Claims -/

theorem indexOf_sorted_desc : ∀ (T : List ℚ), T.Pairwise (fun x y => y ≤ x) →
    ∀ t, t ∈ T → T.indexOf t = T.countP (fun u => decide (t < u)) := by
  intro T
  induction T with
  | nil => intro _ t ht; cases ht
  | cons a rest ih =>
    intro hp t ht
    rw [List.pairwise_cons] at hp
    rw [List.indexOf_cons]
    by_cases hta : t = a
    · subst hta
      rw [show (t == t) = true from beq_self_eq_true t]
      show 0 = _
      symm
      rw [List.countP_eq_zero]
      intro u hu
      rcases List.mem_cons.mp hu with rfl | hu2
      · simp
      · simpa using not_lt.mpr (hp.1 u hu2)
    · have htrest : t ∈ rest := by
        rcases List.mem_cons.mp ht with h | h
        · exact absurd h hta
        · exact h
      have hlt : t < a := lt_of_le_of_ne (hp.1 t htrest) hta
      have hbe : (a == t) = false := by
        simp only [beq_eq_false_iff_ne, ne_eq]
        exact fun h => hta h.symm
      rw [hbe]
      show rest.indexOf t + 1 = _
      rw [List.countP_cons_of_pos _ _ (by simpa using hlt), ih hp.2 t htrest]



/-- C1: the spec claims `recalculate` never raises under any input shape and
that a non-numeric stored score value is silently coerced to 0.0.  The code
instead performs the `float(...)` conversion inside `Student.get_score`,
which is called outside the `try/except` of `recalculate`, so on a roster
whose student has the string `"abc"` stored for subject `"math"` the call
raises `ValueError` and returns no records; the dead `except` branch and its
comment show the coercion was the intent. -/
theorem C1_nonnumeric_score_raises :
    recalculate gbBadScore = .error .valueError ∧
    (gbBadScore.students.get ⟨0, by decide⟩).get_score "math" = .error .valueError := by
  constructor
  · decide
  · decide

/-- C2: on every successful `recalculate`, the rank of each returned row is
the 1-based position of the first position in the descending-sorted totals
sharing that row's total (equivalently one more than the number of strictly
greater totals), and rows with equal totals receive equal ranks. -/
theorem C2_competition_ranking (gb : GradeBook) (rs : List ResultRow)
    (h : recalculate gb = .ok rs) :
    ∀ i (hi : i < rs.length),
      rs[i].rank = some ((pySortedByTotalDesc (fun t => t)
        (rs.map ResultRow.total)).indexOf rs[i].total + 1) ∧
      rs[i].rank = some (competitionRank (rs.map ResultRow.total) rs[i].total) ∧
      ∀ j (hj : j < rs.length), rs[i].total = rs[j].total → rs[i].rank = rs[j].rank := by
  obtain ⟨hlen, hpt⟩ := recalculate_char h
  intro i hi
  have hranki := (hpt i hi (hlen ▸ hi)).2.2.2.2
  refine ⟨?_, hranki, ?_⟩
  · rw [hranki]
    congr 1
    have hperm := pySorted_perm (fun t => t) (rs.map ResultRow.total)
    have hsort := pySorted_sorted (fun t => t) (rs.map ResultRow.total)
    have hmem : rs[i].total ∈ pySortedByTotalDesc (fun t => t) (rs.map ResultRow.total) :=
      hperm.mem_iff.mpr (List.mem_map_of_mem _ (List.getElem_mem hi))
    have hidx := indexOf_sorted_desc _ hsort _ hmem
    unfold competitionRank
    rw [hidx, hperm.countP_eq]
    omega
  · intro j hj heq
    have hrankj := (hpt j hj (hlen ▸ hj)).2.2.2.2
    rw [hranki, hrankj, heq]

/-- C2 witness: the theorem applied to the concrete rosters with totals
[100, 100, 90] and [80, 80, 80, 70]. -/
theorem C2_witness :
    recalculate (rosterOfTotals [100, 100, 90]) = .ok rsTie3 ∧
    rsTie3.map ResultRow.rank = [some 1, some 1, some 3] ∧
    recalculate (rosterOfTotals [80, 80, 80, 70]) = .ok rsTie4 ∧
    rsTie4.map ResultRow.rank = [some 1, some 1, some 1, some 4] ∧
    (rsTie3.get ⟨2, by decide⟩).rank =
      some (competitionRank (rsTie3.map ResultRow.total) (rsTie3.get ⟨2, by decide⟩).total) ∧
    (rsTie4.get ⟨3, by decide⟩).rank =
      some (competitionRank (rsTie4.map ResultRow.total) (rsTie4.get ⟨3, by decide⟩).total) := by
  have h3 : recalculate (rosterOfTotals [100, 100, 90]) = .ok rsTie3 := by
    simp [recalculate, computeRows, computeRow, scoresOf, Student.get_score,
      dictGet, pyFloat, bind, Except.bind, rosterOfTotals, rsTie3, pySortedByTotalDesc,
      List.insertionSort, List.orderedInsert, descRel, rankLoop, grade_from_avg,
      List.enum, List.enumFrom, List.lookup]
    norm_num
  have h4 : recalculate (rosterOfTotals [80, 80, 80, 70]) = .ok rsTie4 := by
    simp [recalculate, computeRows, computeRow, scoresOf, Student.get_score,
      dictGet, pyFloat, bind, Except.bind, rosterOfTotals, rsTie4, pySortedByTotalDesc,
      List.insertionSort, List.orderedInsert, descRel, rankLoop, grade_from_avg,
      List.enum, List.enumFrom, List.lookup]
    norm_num
  refine ⟨h3, by decide, h4, by decide, ?_, ?_⟩
  · exact (C2_competition_ranking _ rsTie3 h3 2 (by decide)).2.1
  · exact (C2_competition_ranking _ rsTie4 h4 3 (by decide)).2.1

/-- C3: the grade is the step function of the average with inclusive lower
bounds, exactly at the boundaries 90, 80, 70, 60. -/
theorem C3_grade_bands (avg : ℚ) :
    (90 ≤ avg → grade_from_avg avg = "A") ∧
    (80 ≤ avg → avg < 90 → grade_from_avg avg = "B") ∧
    (70 ≤ avg → avg < 80 → grade_from_avg avg = "C") ∧
    (60 ≤ avg → avg < 70 → grade_from_avg avg = "D") ∧
    (avg < 60 → grade_from_avg avg = "F") ∧
    grade_from_avg 90 = "A" ∧ grade_from_avg 80 = "B" ∧
    grade_from_avg 70 = "C" ∧ grade_from_avg 60 = "D" := by
  unfold grade_from_avg
  refine ⟨?_, ?_, ?_, ?_, ?_, by norm_num, by norm_num, by norm_num, by norm_num⟩
  · intro h
    rw [if_pos h]
  · intro h1 h2
    rw [if_neg (not_le.mpr h2), if_pos h1]
  · intro h1 h2
    rw [if_neg (not_le.mpr (lt_trans h2 (by norm_num))),
      if_neg (not_le.mpr h2), if_pos h1]
  · intro h1 h2
    rw [if_neg (not_le.mpr (lt_trans h2 (by norm_num))),
      if_neg (not_le.mpr (lt_trans h2 (by norm_num))),
      if_neg (not_le.mpr h2), if_pos h1]
  · intro h
    rw [if_neg (not_le.mpr (lt_trans h (by norm_num))),
      if_neg (not_le.mpr (lt_trans h (by norm_num))),
      if_neg (not_le.mpr (lt_trans h (by norm_num))),
      if_neg (not_le.mpr h)]

/-- C3 witness: the band theorem applied at one point of each band,
including the exact boundary values. -/
theorem C3_witness :
    grade_from_avg 90 = "A" ∧ grade_from_avg 89 = "B" ∧ grade_from_avg 80 = "B" ∧
    grade_from_avg 70 = "C" ∧ grade_from_avg 60 = "D" ∧ grade_from_avg 59 = "F" :=
  ⟨(C3_grade_bands 90).1 (by norm_num),
   (C3_grade_bands 89).2.1 (by norm_num) (by norm_num),
   (C3_grade_bands 80).2.1 (by norm_num) (by norm_num),
   (C3_grade_bands 70).2.2.1 (by norm_num) (by norm_num),
   (C3_grade_bands 60).2.2.2.1 (by norm_num) (by norm_num),
   (C3_grade_bands 59).2.2.2.2.1 (by norm_num)⟩

/-- C4: on every successful `recalculate`, each row's total is the ordered
sum of the per-subject values over the roster's subject list, a subject
absent from the student's scores contributes 0, an empty subject list gives
total 0, and the average is total / subjectCount when the count is positive
and 0 otherwise. -/
theorem C4_total_average (gb : GradeBook) (rs : List ResultRow)
    (h : recalculate gb = .ok rs) :
    (∀ (s : Student) (subj : String),
      s.scores.find? (fun p => p.1 == subj) = none →
      okD (s.get_score subj) = 0) ∧
    ∀ i (hi : i < rs.length) (hi2 : i < gb.students.length),
      rs[i].total = (gb.subjects.map
        (fun subj => okD (gb.students[i].get_score subj))).sum ∧
      (gb.subjects = [] → rs[i].total = 0) ∧
      rs[i].avg = (if 0 < gb.subjects.length
        then rs[i].total / (gb.subjects.length : ℚ) else 0) := by
  obtain ⟨hlen, hpt⟩ := recalculate_char h
  constructor
  · intro s subj habs
    simp [okD, Student.get_score, dictGet, habs, pyFloat]
  · intro i hi hi2
    obtain ⟨_, htotal, havg, _, _⟩ := hpt i hi hi2
    refine ⟨htotal, ?_, havg⟩
    intro hnil
    rw [htotal, hnil]
    rfl

/-- C4 witness: the theorem applied to a roster with two subjects where the
single student has a score only for the first subject. -/
theorem C4_witness :
    recalculate gbPartial = .ok rsPartial ∧
    (rsPartial.get ⟨0, by decide⟩).total = (gbPartial.subjects.map
      (fun subj => okD ((gbPartial.students.get ⟨0, by decide⟩).get_score subj))).sum ∧
    (rsPartial.get ⟨0, by decide⟩).avg =
      (if 0 < gbPartial.subjects.length
        then (rsPartial.get ⟨0, by decide⟩).total / (gbPartial.subjects.length : ℚ)
        else 0) := by
  have h : recalculate gbPartial = .ok rsPartial := by
    simp [recalculate, computeRows, computeRow, scoresOf, Student.get_score,
      dictGet, pyFloat, bind, Except.bind, gbPartial, rsPartial, pySortedByTotalDesc,
      List.insertionSort, List.orderedInsert, descRel, rankLoop, grade_from_avg,
      List.enum, List.enumFrom, List.lookup]
    norm_num
  have h2 := (C4_total_average gbPartial rsPartial h).2 0 (by decide) (by decide)
  exact ⟨h, h2.1, h2.2.2⟩

/-- C5: `recalculate` returns exactly one row per input student, in roster
order: the row at position `i` refers to the student at position `i`. -/
theorem C5_one_row_per_student (gb : GradeBook) (rs : List ResultRow)
    (h : recalculate gb = .ok rs) :
    rs.length = gb.students.length ∧
    ∀ i (hi : i < rs.length), rs[i].student = i := by
  obtain ⟨hlen, hpt⟩ := recalculate_char h
  exact ⟨hlen, fun i hi => (hpt i hi (hlen ▸ hi)).1⟩

/-- C5 witness: the theorem applied to the [100, 100, 90] roster. -/
theorem C5_witness :
    recalculate (rosterOfTotals [100, 100, 90]) = .ok rsTie3 ∧
    rsTie3.length = (rosterOfTotals [100, 100, 90]).students.length ∧
    (rsTie3.get ⟨0, by decide⟩).student = 0 ∧
    (rsTie3.get ⟨1, by decide⟩).student = 1 ∧
    (rsTie3.get ⟨2, by decide⟩).student = 2 := by
  have h : recalculate (rosterOfTotals [100, 100, 90]) = .ok rsTie3 := by
    simp [recalculate, computeRows, computeRow, scoresOf, Student.get_score,
      dictGet, pyFloat, bind, Except.bind, rosterOfTotals, rsTie3, pySortedByTotalDesc,
      List.insertionSort, List.orderedInsert, descRel, rankLoop, grade_from_avg,
      List.enum, List.enumFrom, List.lookup]
    norm_num
  obtain ⟨hlen, hpt⟩ := C5_one_row_per_student _ rsTie3 h
  exact ⟨h, hlen, hpt 0 (by decide), hpt 1 (by decide), hpt 2 (by decide)⟩

/-- C6: an empty roster yields an empty result sequence regardless of the
subject count; a roster with students but no subjects yields, for every
student, total 0, average 0, grade "F" and rank 1 (all students tied). -/
theorem C6_degenerate_rosters (gb : GradeBook) :
    (gb.students = [] → recalculate gb = .ok []) ∧
    (gb.subjects = [] → ∃ rs, recalculate gb = .ok rs ∧
      rs.length = gb.students.length ∧
      ∀ r ∈ rs, r.total = 0 ∧ r.avg = 0 ∧ r.grade = "F" ∧ r.rank = some 1) := by
  constructor
  · exact recalculate_students_nil
  · intro h
    obtain ⟨rs, hok⟩ := recalculate_ok_of_nil_subjects h
    obtain ⟨hlen, hpt⟩ := recalculate_char hok
    refine ⟨rs, hok, hlen, ?_⟩
    have htot : ∀ j (hj : j < rs.length), rs[j].total = 0 := by
      intro j hj
      have hj2 : j < gb.students.length := hlen ▸ hj
      have := (hpt j hj hj2).2.1
      rw [this, h]
      rfl
    have hall : ∀ u ∈ rs.map ResultRow.total, u = 0 := by
      intro u hu
      obtain ⟨r, hr, rfl⟩ := List.mem_map.mp hu
      obtain ⟨j, hj, rfl⟩ := List.mem_iff_getElem.mp hr
      exact htot j hj
    intro r hr
    obtain ⟨j, hj, rfl⟩ := List.mem_iff_getElem.mp hr
    have hj2 : j < gb.students.length := hlen ▸ hj
    obtain ⟨_, _, havg, hgrade, hrank⟩ := hpt j hj hj2
    have ht0 : rs[j].total = 0 := htot j hj
    have ha0 : rs[j].avg = 0 := by
      rw [havg, h]
      rfl
    refine ⟨ht0, ha0, ?_, ?_⟩
    · rw [hgrade, ha0]
      norm_num [grade_from_avg]
    · rw [hrank, ht0, competitionRank_all_eq hall]

/-- C6 witness: the theorem applied to a roster with a subject and no
students, and to a roster with two students and no subjects. -/
theorem C6_witness :
    recalculate gbNoStudents = .ok [] ∧
    recalculate gbNoSubjects = .ok rsNoSubjects ∧
    (rsNoSubjects.get ⟨0, by decide⟩).total = 0 ∧
    (rsNoSubjects.get ⟨0, by decide⟩).avg = 0 ∧
    (rsNoSubjects.get ⟨0, by decide⟩).grade = "F" ∧
    (rsNoSubjects.get ⟨0, by decide⟩).rank = some 1 ∧
    (rsNoSubjects.get ⟨1, by decide⟩).rank = some 1 := by
  have h1 : recalculate gbNoStudents = .ok [] :=
    (C6_degenerate_rosters gbNoStudents).1 rfl
  have heval : recalculate gbNoSubjects = .ok rsNoSubjects := by decide
  obtain ⟨rs, hok, hlen, hall⟩ := (C6_degenerate_rosters gbNoSubjects).2 rfl
  have h2 : Except.ok rs = Except.ok rsNoSubjects := hok.symm.trans heval
  have hrs : rs = rsNoSubjects := by injection h2
  subst hrs
  have hr0 := hall (rsNoSubjects.get ⟨0, by decide⟩) (by decide)
  have hr1 := hall (rsNoSubjects.get ⟨1, by decide⟩) (by decide)
  exact ⟨h1, heval, hr0.1, hr0.2.1, hr0.2.2.1, hr0.2.2.2, hr1.2.2.2⟩

/-- C7: on every successful `recalculate`, every returned row carries a rank
that is `some k` for a positive `k` bounded by the number of students; in
particular `rank` is never `none` on a non-empty roster. -/
theorem C7_rank_bounds (gb : GradeBook) (rs : List ResultRow)
    (h : recalculate gb = .ok rs) :
    ∀ r ∈ rs, ∃ k, r.rank = some k ∧ 1 ≤ k ∧ k ≤ gb.students.length := by
  obtain ⟨hlen, hpt⟩ := recalculate_char h
  intro r hr
  obtain ⟨j, hj, rfl⟩ := List.mem_iff_getElem.mp hr
  have hj2 : j < gb.students.length := hlen ▸ hj
  obtain ⟨_, _, _, _, hrank⟩ := hpt j hj hj2
  refine ⟨competitionRank (rs.map ResultRow.total) rs[j].total, hrank,
    competitionRank_pos _ _, ?_⟩
  have hmem : rs[j].total ∈ rs.map ResultRow.total :=
    List.mem_map_of_mem _ (List.getElem_mem hj)
  have hle := competitionRank_le hmem
  rw [List.length_map, hlen] at hle
  exact hle

/-- C7 witness: the theorem applied to the [100, 100, 90] roster at the
last row, whose rank is 3 with 1 ≤ 3 ≤ 3. -/
theorem C7_witness :
    recalculate (rosterOfTotals [100, 100, 90]) = .ok rsTie3 ∧
    (rsTie3.get ⟨2, by decide⟩).rank = some 3 ∧
    1 ≤ 3 ∧ 3 ≤ (rosterOfTotals [100, 100, 90]).students.length := by
  have h : recalculate (rosterOfTotals [100, 100, 90]) = .ok rsTie3 := by
    simp [recalculate, computeRows, computeRow, scoresOf, Student.get_score,
      dictGet, pyFloat, bind, Except.bind, rosterOfTotals, rsTie3, pySortedByTotalDesc,
      List.insertionSort, List.orderedInsert, descRel, rankLoop, grade_from_avg,
      List.enum, List.enumFrom, List.lookup]
    norm_num
  obtain ⟨k, hk, hk1, hk2⟩ :=
    C7_rank_bounds _ rsTie3 h (rsTie3.get ⟨2, by decide⟩) (by decide)
  have h5 : some k = some 3 := hk.symm.trans (by decide)
  have hk3 : k = 3 := by injection h5
  subst hk3
  exact ⟨h, by decide, hk1, hk2⟩

/-- C8 counterexample: on the tied totals [100, 100, 90] the core ranking
assigns competition ranks [1, 1, 3] while the GUI ranking assigns the
consecutive sorted positions [1, 2, 3], so the two ranking procedures do
not assign every position the same rank. -/
theorem C8_counterexample :
    gui_ranks [100, 100, 90] = [some 1, some 2, some 3] ∧
    core_ranks [100, 100, 90] = [some 1, some 1, some 3] ∧
    gui_ranks [100, 100, 90] ≠ core_ranks [100, 100, 90] :=
  ⟨by decide, by decide, by decide⟩

/-- C8 (amended): the two grade functions agree at every average, and the
two ranking procedures agree on every totals list whose totals are pairwise
distinct; on tied totals they differ, as the counterexample shows. -/
theorem C8_aligned_amended :
    (∀ avg : ℚ, grade_from_avg avg = gui_grade_from_avg avg) ∧
    (∀ totals : List ℚ, totals.Nodup → gui_ranks totals = core_ranks totals) :=
  ⟨fun _ => rfl, fun _ hnd => gui_core_ranks_eq hnd⟩

/-- C8 witness: the amended theorem applied at average 95 and at the
tie-free totals [100, 90, 80]. -/
theorem C8_witness :
    grade_from_avg 95 = gui_grade_from_avg 95 ∧
    gui_ranks [100, 90, 80] = core_ranks [100, 90, 80] :=
  ⟨C8_aligned_amended.1 95, C8_aligned_amended.2 [100, 90, 80] (by decide)⟩

/-- C9: by the state-passing embedding, a completed `recalculate` call
leaves the gradebook — its subjects list, its students list, and hence
every student's name, scores, phone and note — exactly as it was, and
returns the same rows as the plain embedding; `Student` has no field in
which a result record could be stored back. -/
theorem C9_no_mutation (gb gb2 : GradeBook) (rs : List ResultRow)
    (h : recalculateST gb = .ok (gb2, rs)) :
    gb2 = gb ∧ gb2.subjects = gb.subjects ∧ gb2.students = gb.students ∧
    recalculate gb = .ok rs := by
  rw [recalculateST_eq] at h
  cases hg : recalculate gb with
  | error e =>
    rw [hg] at h
    simp [Except.map] at h
  | ok rs0 =>
    rw [hg] at h
    simp only [Except.map] at h
    have h2 : (gb, rs0) = (gb2, rs) := by injection h
    have h3 : gb = gb2 := congrArg Prod.fst h2
    have h4 : rs0 = rs := congrArg Prod.snd h2
    exact ⟨h3.symm, by rw [h3], by rw [h3], congrArg Except.ok h4⟩

/-- C9 witness: the theorem applied to the one-student roster with total
50; the call returns the roster unchanged. -/
theorem C9_witness :
    recalculateST (rosterOfTotals [50]) = .ok (rosterOfTotals [50], rsSingle) ∧
    recalculate (rosterOfTotals [50]) = .ok rsSingle := by
  have h : recalculateST (rosterOfTotals [50]) = .ok (rosterOfTotals [50], rsSingle) := by
    simp [recalculateST, computeRowsST, computeRowST, scoresOfST, Student.get_scoreST,
      dictGet, pyFloat, bind, Except.bind, rosterOfTotals, rsSingle, pySortedByTotalDesc,
      List.insertionSort, List.orderedInsert, descRel, rankLoop, grade_from_avg,
      List.enum, List.enumFrom, List.lookup]
    norm_num
  exact ⟨h, (C9_no_mutation _ _ _ h).2.2.2⟩

/-- C10: `remove_student` never raises: for an in-range index it removes
exactly the student at that position and leaves the subjects unchanged; for
any out-of-range index (negative or at least the student count) it leaves
the gradebook entirely unchanged. -/
theorem C10_remove_student (gb : GradeBook) (index : ℤ) :
    ((0 ≤ index ∧ index < gb.students.length) →
      (gb.remove_student index).subjects = gb.subjects ∧
      (gb.remove_student index).students =
        gb.students.take index.toNat ++ gb.students.drop (index.toNat + 1) ∧
      (gb.remove_student index).students.length = gb.students.length - 1) ∧
    (¬(0 ≤ index ∧ index < gb.students.length) → gb.remove_student index = gb) := by
  constructor
  · intro hinr
    unfold GradeBook.remove_student
    rw [if_pos hinr]
    refine ⟨rfl, ?_, ?_⟩
    · show gb.students.eraseIdx index.toNat = _
      rw [List.eraseIdx_eq_take_drop_succ]
    · show (gb.students.eraseIdx index.toNat).length = _
      exact List.length_eraseIdx_of_lt (by omega)
  · intro hout
    unfold GradeBook.remove_student
    rw [if_neg hout]

/-- C10 witness: the theorem applied to a two-student roster at the
in-range index 0 and at the out-of-range index -1. -/
theorem C10_witness :
    (0 ≤ (0 : ℤ) ∧ (0 : ℤ) < (rosterOfTotals [1, 2]).students.length) ∧
    ((rosterOfTotals [1, 2]).remove_student 0).subjects =
      (rosterOfTotals [1, 2]).subjects ∧
    ((rosterOfTotals [1, 2]).remove_student 0).students =
      (rosterOfTotals [1, 2]).students.take (0 : ℤ).toNat ++
      (rosterOfTotals [1, 2]).students.drop ((0 : ℤ).toNat + 1) ∧
    ¬(0 ≤ (-1 : ℤ) ∧ (-1 : ℤ) < (rosterOfTotals [1, 2]).students.length) ∧
    (rosterOfTotals [1, 2]).remove_student (-1) = rosterOfTotals [1, 2] := by
  have hin : 0 ≤ (0 : ℤ) ∧ (0 : ℤ) < (rosterOfTotals [1, 2]).students.length := by decide
  have hout : ¬(0 ≤ (-1 : ℤ) ∧ (-1 : ℤ) < (rosterOfTotals [1, 2]).students.length) := by
    decide
  have h1 := (C10_remove_student (rosterOfTotals [1, 2]) 0).1 hin
  have h2 := (C10_remove_student (rosterOfTotals [1, 2]) (-1)).2 hout
  exact ⟨hin, h1.1, h1.2.1, hout, h2⟩

end Gradebook
